import Mathlib

/-
Verification of the lnurl-spark invoice-issuance engine.

This file shallowly embeds the core of `src/routes.rs` together with the data
model of `src/models/` (users, invoices, zaps) and settles the frozen claims
about it.  External collaborators are embedded as explicit data or function
parameters:

* the relational store is an explicit `Db` value threaded through the request,
  with Postgres serial id assignment modelled by `Db.next_invoice_id` and
  diesel's `conn.transaction` modelled by returning the original `Db` whenever
  the transaction body fails (rollback); store-level insert failures are
  injected through the `invoice_insert_fails` / `zap_insert_fails` parameters;
* the spark wallet's `create_lightning_invoice` is a one-shot oracle: the
  response the wallet would give is a parameter, and the arguments the code
  passes to the wallet are recorded in the result's `wallet_calls` trace;
* `lightning_invoice::Bolt11Invoice::from_str` is a parameter
  `parse_bolt11`; only the embedded `amount_milli_satoshis` field is relevant;
* `bitcoin::hashes::sha256` is implemented in full (FIPS 180-4) over byte
  lists;
* the `nostr` crate's `Event::from_json` / `Event::as_json` are modelled by a
  JSON value type with a parser and the canonical compact serializer.  The
  parser accepts the serde_json fragment exercised here (objects, arrays,
  strings with the common escapes, non-negative integers, arbitrary
  whitespace between tokens) and the event decoder enforces the structural
  checks the nostr crate performs on deserialization (64-lowercase-hex id and
  pubkey, 128-lowercase-hex sig, tags as arrays of strings); the serializer
  emits the compact form serde produces, with the `Event` struct's declared
  field order (id, pubkey, created_at, kind, tags, content, sig).
-/

set_option maxRecDepth 40000

/-! ## SHA-256 (model of `bitcoin::hashes::sha256`), over lists of bytes -/

def w32 (n : Nat) : Nat := n % 4294967296

def rotr32 (x n : Nat) : Nat := w32 ((x >>> n) ||| (x <<< (32 - n)))

/-- Eight 32-bit hash words (the SHA-256 working state and digest state). -/
structure Hash8 where
  a : Nat
  b : Nat
  c : Nat
  d : Nat
  e : Nat
  f : Nat
  g : Nat
  h : Nat
deriving DecidableEq

def sha256InitH : Hash8 :=
  ⟨1779033703, 3144134277, 1013904242, 2773480762,
   1359893119, 2600822924, 528734635, 1541459225⟩

def sha256K : Array Nat := #[
  1116352408, 1899447441, 3049323471, 3921009573, 961987163, 1508970993,
  2453635748, 2870763221, 3624381080, 310598401, 607225278, 1426881987,
  1925078388, 2162078206, 2614888103, 3248222580, 3835390401, 4022224774,
  264347078, 604807628, 770255983, 1249150122, 1555081692, 1996064986,
  2554220882, 2821834349, 2952996808, 3210313671, 3336571891, 3584528711,
  113926993, 338241895, 666307205, 773529912, 1294757372, 1396182291,
  1695183700, 1986661051, 2177026350, 2456956037, 2730485921, 2820302411,
  3259730800, 3345764771, 3516065817, 3600352804, 4094571909, 275423344,
  430227734, 506948616, 659060556, 883997877, 958139571, 1322822218,
  1537002063, 1747873779, 1955562222, 2024104815, 2227730452, 2361852424,
  2428436474, 2756734187, 3204031479, 3329325298]

def shaCh (x y z : Nat) : Nat := (x &&& y) ^^^ ((x ^^^ 4294967295) &&& z)

def shaMaj (x y z : Nat) : Nat := (x &&& y) ^^^ (x &&& z) ^^^ (y &&& z)

def bigSigma0 (x : Nat) : Nat := rotr32 x 2 ^^^ rotr32 x 13 ^^^ rotr32 x 22

def bigSigma1 (x : Nat) : Nat := rotr32 x 6 ^^^ rotr32 x 11 ^^^ rotr32 x 25

def smallSigma0 (x : Nat) : Nat := rotr32 x 7 ^^^ rotr32 x 18 ^^^ (x >>> 3)

def smallSigma1 (x : Nat) : Nat := rotr32 x 17 ^^^ rotr32 x 19 ^^^ (x >>> 10)

def be64 (n : Nat) : List Nat :=
  [(n >>> 56) &&& 255, (n >>> 48) &&& 255, (n >>> 40) &&& 255, (n >>> 32) &&& 255,
   (n >>> 24) &&& 255, (n >>> 16) &&& 255, (n >>> 8) &&& 255, n &&& 255]

def be32 (n : Nat) : List Nat :=
  [(n >>> 24) &&& 255, (n >>> 16) &&& 255, (n >>> 8) &&& 255, n &&& 255]

def sha256Pad (msg : List Nat) : List Nat :=
  let l := msg.length
  let k := (120 - ((l + 1) % 64)) % 64
  msg ++ 128 :: List.replicate k 0 ++ be64 (8 * l)

def chunks64 : Nat → List Nat → List (List Nat)
  | 0, _ => []
  | _, [] => []
  | fuel + 1, l => l.take 64 :: chunks64 fuel (l.drop 64)

def blockWords (block : List Nat) : Array Nat :=
  (List.range 16).foldl (fun arr i =>
    arr.push (((block.getD (4 * i) 0 * 256 + block.getD (4 * i + 1) 0) * 256 +
      block.getD (4 * i + 2) 0) * 256 + block.getD (4 * i + 3) 0)) #[]

def extendWords (ws : Array Nat) : Array Nat :=
  (List.range 48).foldl (fun w t =>
    let i := t + 16
    w.push (w32 (smallSigma1 (w.getD (i - 2) 0) + w.getD (i - 7) 0 +
      smallSigma0 (w.getD (i - 15) 0) + w.getD (i - 16) 0))) ws

def sha256Round (s : Hash8) (kw : Nat × Nat) : Hash8 :=
  let t1 := w32 (s.h + bigSigma1 s.e + shaCh s.e s.f s.g + kw.1 + kw.2)
  let t2 := w32 (bigSigma0 s.a + shaMaj s.a s.b s.c)
  ⟨w32 (t1 + t2), s.a, s.b, s.c, w32 (s.d + t1), s.e, s.f, s.g⟩

def sha256Block (s : Hash8) (block : List Nat) : Hash8 :=
  let w := extendWords (blockWords block)
  let r := (List.range 64).foldl (fun st i => sha256Round st (sha256K.getD i 0, w.getD i 0)) s
  ⟨w32 (s.a + r.a), w32 (s.b + r.b), w32 (s.c + r.c), w32 (s.d + r.d),
   w32 (s.e + r.e), w32 (s.f + r.f), w32 (s.g + r.g), w32 (s.h + r.h)⟩

/-- SHA-256 of a byte sequence, as the 32-byte big-endian digest. -/
def sha256 (msg : List Nat) : List Nat :=
  let padded := sha256Pad msg
  let final := (chunks64 padded.length padded).foldl sha256Block sha256InitH
  be32 final.a ++ be32 final.b ++ be32 final.c ++ be32 final.d ++
  be32 final.e ++ be32 final.f ++ be32 final.g ++ be32 final.h

/-- UTF-8 encoding of a string (model of Rust `str::as_bytes`). -/
def utf8Bytes (s : String) : List Nat :=
  (s.data.foldl (fun acc c => acc ++ String.utf8EncodeChar c) []).map UInt8.toNat

/-! ## JSON values (model of the serde_json fragment the nostr crate uses) -/

inductive Json where
  | str : String → Json
  | num : Nat → Json
  | arr : List Json → Json
  | obj : List (String × Json) → Json

def isJsonWs (c : Char) : Bool := c = ' ' || c = '\t' || c = '\n' || c = '\r'

def skipWs : List Char → List Char
  | [] => []
  | c :: rest => if isJsonWs c then skipWs rest else c :: rest

def parseStringChars : List Char → Option (List Char × List Char)
  | [] => none
  | '"' :: rest => some ([], rest)
  | '\\' :: '"' :: rest => (parseStringChars rest).map (fun p => ('"' :: p.1, p.2))
  | '\\' :: '\\' :: rest => (parseStringChars rest).map (fun p => ('\\' :: p.1, p.2))
  | '\\' :: '/' :: rest => (parseStringChars rest).map (fun p => ('/' :: p.1, p.2))
  | '\\' :: 'n' :: rest => (parseStringChars rest).map (fun p => ('\n' :: p.1, p.2))
  | '\\' :: 't' :: rest => (parseStringChars rest).map (fun p => ('\t' :: p.1, p.2))
  | '\\' :: _ => none
  | c :: rest => if c.toNat < 32 then none else (parseStringChars rest).map (fun p => (c :: p.1, p.2))

def parseDigits : List Char → List Char → (List Char × List Char)
  | acc, [] => (acc, [])
  | acc, c :: rest => if c.isDigit then parseDigits (acc ++ [c]) rest else (acc, c :: rest)

def digitsToNat (l : List Char) : Nat := l.foldl (fun n c => n * 10 + (c.toNat - 48)) 0

mutual

def jsonParseVal : Nat → List Char → Option (Json × List Char)
  | 0, _ => none
  | fuel + 1, input =>
    match input with
    | [] => none
    | '"' :: rest => (parseStringChars rest).map (fun p => (Json.str ⟨p.1⟩, p.2))
    | '[' :: rest =>
      match skipWs rest with
      | ']' :: rest2 => some (Json.arr [], rest2)
      | rest2 => (jsonParseItems fuel rest2).map (fun p => (Json.arr p.1, p.2))
    | '{' :: rest =>
      match skipWs rest with
      | '}' :: rest2 => some (Json.obj [], rest2)
      | rest2 => (jsonParseMembers fuel rest2).map (fun p => (Json.obj p.1, p.2))
    | c :: rest =>
      if c.isDigit then
        let p := parseDigits [] (c :: rest)
        some (Json.num (digitsToNat p.1), p.2)
      else none

def jsonParseItems : Nat → List Char → Option (List Json × List Char)
  | 0, _ => none
  | fuel + 1, input =>
    match jsonParseVal fuel input with
    | none => none
    | some (v, rest) =>
      match skipWs rest with
      | ',' :: rest2 => (jsonParseItems fuel (skipWs rest2)).map (fun p => (v :: p.1, p.2))
      | ']' :: rest2 => some ([v], rest2)
      | _ => none

def jsonParseMembers : Nat → List Char → Option (List (String × Json) × List Char)
  | 0, _ => none
  | fuel + 1, input =>
    match input with
    | '"' :: rest =>
      match parseStringChars rest with
      | none => none
      | some (key, rest2) =>
        match skipWs rest2 with
        | ':' :: rest3 =>
          match jsonParseVal fuel (skipWs rest3) with
          | none => none
          | some (v, rest4) =>
            match skipWs rest4 with
            | ',' :: rest5 => (jsonParseMembers fuel (skipWs rest5)).map (fun p => ((⟨key⟩, v) :: p.1, p.2))
            | '}' :: rest5 => some ([(⟨key⟩, v)], rest5)
            | _ => none
        | _ => none
    | _ => none

end

def jsonParse (s : String) : Option Json :=
  match jsonParseVal (s.length + 1) (skipWs s.data) with
  | some (v, rest) => if skipWs rest = [] then some v else none
  | none => none

def hexDigit (n : Nat) : Char := if n < 10 then Char.ofNat (48 + n) else Char.ofNat (87 + n)

def escapeJsonChar (c : Char) : List Char :=
  if c = '"' then ['\\', '"']
  else if c = '\\' then ['\\', '\\']
  else if c = '\n' then ['\\', 'n']
  else if c = '\t' then ['\\', 't']
  else if c = '\r' then ['\\', 'r']
  else if c.toNat < 32 then ['\\', 'u', '0', '0', hexDigit (c.toNat / 16), hexDigit (c.toNat % 16)]
  else [c]

def escapeJsonString (s : String) : String := ⟨s.data.foldr (fun c acc => escapeJsonChar c ++ acc) []⟩

mutual

def jsonSerialize : Json → String
  | .str s => "\"" ++ escapeJsonString s ++ "\""
  | .num n => toString n
  | .arr l => "[" ++ jsonSerializeList l ++ "]"
  | .obj l => "\x7b" ++ jsonSerializeMembers l ++ "\x7d"

def jsonSerializeList : List Json → String
  | [] => ""
  | [v] => jsonSerialize v
  | v :: rest => jsonSerialize v ++ "," ++ jsonSerializeList rest

def jsonSerializeMembers : List (String × Json) → String
  | [] => ""
  | [(k, v)] => "\"" ++ escapeJsonString k ++ "\":" ++ jsonSerialize v
  | (k, v) :: rest => "\"" ++ escapeJsonString k ++ "\":" ++ jsonSerialize v ++ "," ++ jsonSerializeMembers rest

end

/-! ## Nostr events (model of `nostr::Event`) -/

/-- A nostr event as the nostr crate deserializes it (NIP-01 fields). -/
structure Event where
  id : String
  pubkey : String
  created_at : Nat
  kind : Nat
  tags : List (List String)
  content : String
  sig : String
deriving DecidableEq

/-- `nostr::Kind::ZapRequest` (NIP-57). -/
def kindZapRequest : Nat := 9734

def isLowerHexChar (c : Char) : Bool := c.isDigit || ('a' ≤ c && c ≤ 'f')

def isLowerHex (s : String) (n : Nat) : Bool := s.length = n && s.data.all isLowerHexChar

def lookupField (l : List (String × Json)) (k : String) : Option Json :=
  (l.find? (fun p => p.1 == k)).map (fun p => p.2)

def keysDistinct : List String → Bool
  | [] => true
  | k :: rest => (! rest.contains k) && keysDistinct rest

def jsonToTag : Json → Option (List String)
  | .arr items =>
    if items.all (fun v => match v with | .str _ => true | _ => false) && ! items.isEmpty then
      some (items.filterMap (fun v => match v with | .str s => some s | _ => none))
    else none
  | _ => none

def jsonToTags : Json → Option (List (List String))
  | .arr items =>
    let tags := items.filterMap jsonToTag
    if tags.length = items.length then some tags else none
  | _ => none

def eventOfJson (j : Json) : Option Event :=
  match j with
  | .obj members =>
    if ! keysDistinct (members.map (fun p => p.1)) then none
    else
      match lookupField members "id", lookupField members "pubkey",
            lookupField members "created_at", lookupField members "kind",
            lookupField members "tags", lookupField members "content",
            lookupField members "sig" with
      | some (.str id), some (.str pubkey), some (.num created_at), some (.num kind),
        some tagsJson, some (.str content), some (.str sig) =>
        match jsonToTags tagsJson with
        | some tags =>
          if isLowerHex id 64 && isLowerHex pubkey 64 && isLowerHex sig 128 then
            some ⟨id, pubkey, created_at, kind, tags, content, sig⟩
          else none
        | none => none
      | _, _, _, _, _, _, _ => none
  | _ => none

/-- Model of `nostr::Event::from_json`. -/
def Event.from_json (s : String) : Option Event :=
  (jsonParse s).bind eventOfJson

/-- Model of `nostr::Event::as_json`: compact serde serialization in the
struct's declared field order. -/
def Event.as_json (e : Event) : String :=
  jsonSerialize (Json.obj
    [("id", .str e.id), ("pubkey", .str e.pubkey), ("created_at", .num e.created_at),
     ("kind", .num e.kind), ("tags", .arr (e.tags.map (fun t => .arr (t.map .str)))),
     ("content", .str e.content), ("sig", .str e.sig)])

/-! ## Data model (`src/models/user.rs`, `src/models/invoice.rs`, `src/models/schema.rs`) -/

/-- A row of the `users` table. -/
structure User where
  id : Int
  pubkey : String
  name : String
  disabled_zaps : Bool
deriving DecidableEq

/-- A row of the `invoice` table. -/
structure Invoice where
  id : Int
  user_id : Int
  bolt11 : String
  amount_msats : Int
  preimage : String
  lnurlp_comment : Option String
  state : Int
deriving DecidableEq

/-- Modelled from the spec: `src/models/zap.rs` is not among the sources (only
its caller in `routes.rs` and its table declaration in `schema.rs` are).  Per
the schema a `zaps` row has columns `id`, `request` (the raw serialized zap
request payload) and a nullable `event_id` assigned after downstream
publication. -/
structure Zap where
  id : Int
  request : String
  event_id : Option String
deriving DecidableEq

inductive InvoiceState where
  | Pending
  | Settled
  | Cancelled
deriving DecidableEq

/-- The `i32` discriminant of `InvoiceState` (`Pending = 0`). -/
def InvoiceState.toInt : InvoiceState → Int
  | .Pending => 0
  | .Settled => 1
  | .Cancelled => 2

/-- The relational store visible to one request: the three tables plus the
Postgres serial sequence backing `invoice.id` (sequences start at 1). -/
structure Db where
  users : List User
  invoices : List Invoice
  zaps : List Zap
  next_invoice_id : Int
deriving DecidableEq

/-- Model of `User::get_by_name`: first `users` row with the given name. -/
def User.get_by_name (db : Db) (name : String) : Option User :=
  db.users.find? (fun u => u.name == name)

/-- The `NewInvoice` insertable (`src/models/invoice.rs`): all columns except
the serial `id`. -/
structure NewInvoice where
  user_id : Int
  bolt11 : String
  amount_msats : Int
  preimage : String
  lnurlp_comment : Option String
  state : Int
deriving DecidableEq

/-- Model of `NewInvoice::insert`: the row is appended with the next serial id
and returned. -/
def NewInvoice.insert (ni : NewInvoice) (db : Db) : Invoice × Db :=
  let row : Invoice := ⟨db.next_invoice_id, ni.user_id, ni.bolt11, ni.amount_msats,
    ni.preimage, ni.lnurlp_comment, ni.state⟩
  (row, { db with invoices := db.invoices ++ [row], next_invoice_id := db.next_invoice_id + 1 })

/-- Modelled from the spec: `Zap::insert` lives in the missing
`src/models/zap.rs`.  The spec's store interface offers plain row inserts
("conditional insert, transactional multi-row insert"), and the caller in
`routes.rs` constructs the full `Zap` row (including its `id` field) before
inserting, so the insert is modelled as appending exactly the given row, like
the other tables' inserts. -/
def Zap.insert (z : Zap) (db : Db) : Db :=
  { db with zaps := db.zaps ++ [z] }

/-! ## Request model (`src/routes.rs`) -/

/-- Query parameters of the invoice callback, after deserialization. -/
structure LnurlCallbackParams where
  amount : Option Nat
  comment : Option String
  nostr : Option String
deriving DecidableEq

/-- Model of `empty_string_as_none` for `T = String` (for which `FromStr`
never fails): an absent or empty raw value deserializes to `none`. -/
def empty_string_as_none (o : Option String) : Option String :=
  match o with
  | none => none
  | some "" => none
  | some s => some s

/-- Deserialization of the raw query parameters into `LnurlCallbackParams`:
`comment` and `nostr` go through `empty_string_as_none`. -/
def parseCallbackQuery (amount : Option Nat) (comment nostr : Option String) :
    LnurlCallbackParams :=
  ⟨amount, empty_string_as_none comment, empty_string_as_none nostr⟩

/-- The configuration slice of `State` used by `get_invoice_impl`. -/
structure AppState where
  domain : String
  min_sendable : Nat
  max_sendable : Nat
deriving DecidableEq

/-- The wallet's `create_lightning_invoice` response: the invoice string
and the optional payment preimage. -/
structure CreateInvoiceResp where
  invoice : String
  payment_preimage : Option String
deriving DecidableEq

/-- The slice of a parsed `Bolt11Invoice` this core inspects. -/
structure Bolt11Inv where
  amount_milli_satoshis : Option Nat
deriving DecidableEq

/-- One recorded call to `wallet.create_lightning_invoice`: the amount (in
sats, after the millisat division), the description-hash commitment, and the
payee public key; the two `Option`s mirror the `Some(..)` arguments in the
source. -/
structure WalletCall where
  amount_sats : Nat
  description_hash : Option (List Nat)
  payee_pubkey : Option String
deriving DecidableEq

inductive LnurlError where
  | MissingAmount
  | AmountOutOfBounds
  | UserNotFound
  | ZapsDisabled
  | InvalidZapRequest
  | Wallet (msg : String)
  | InvoiceParse (msg : String)
  | InvoiceAmountMismatch
  | DbError
deriving DecidableEq

deriving instance DecidableEq for Except

/-- Result of one `get_invoice_impl` run: the value or error returned, the
store state afterwards, and the trace of wallet calls made. -/
structure GIResult where
  result : Except LnurlError Bolt11Inv
  db : Db
  wallet_calls : List WalletCall
deriving DecidableEq

/-- Model of `calc_metadata` (`src/routes.rs`). -/
def calc_metadata (name domain : String) : String :=
  "[[\"text/identifier\",\"" ++ name ++ "@" ++ domain ++ "\"],[\"text/plain\",\"Sats for " ++ name ++ "\"]]"

/-- The `u64 as i64` cast applied to `amount_msats` when the row is built. -/
def i64_of_u64 (n : Nat) : Int :=
  if n < 9223372036854775808 then (n : Int) else (n : Int) - 18446744073709551616

/-- The zap-request validation of `get_invoice_impl` lines 72-77: parse the
`nostr` parameter as an event and require kind `ZapRequest`; both failure
modes collapse to the same "Invalid zap request" error. -/
def zap_event_of (s : String) : Option Event :=
  match Event.from_json s with
  | none => none
  | some e => if e.kind = kindZapRequest then some e else none

/-- The wallet call, invoice cross-check and transactional persistence of
`get_invoice_impl` (`src/routes.rs` lines 82-123), after validation has
succeeded and the description hash and optional zap request are fixed. -/
def issue_invoice (db : Db) (user : User) (amount_msats : Nat) (desc_hash : List Nat)
    (zap_request : Option Event) (comment : Option String)
    (wallet_resp : Except String CreateInvoiceResp)
    (parse_bolt11 : String → Except String Bolt11Inv)
    (invoice_insert_fails zap_insert_fails : Bool) : GIResult :=
  let call : WalletCall := ⟨amount_msats / 1000, some desc_hash, some user.pubkey⟩
  match wallet_resp with
  | .error e => ⟨.error (.Wallet e), db, [call]⟩
  | .ok resp =>
    match parse_bolt11 resp.invoice with
    | .error e => ⟨.error (.InvoiceParse e), db, [call]⟩
    | .ok invoice =>
      if invoice.amount_milli_satoshis = none ∨ invoice.amount_milli_satoshis ≠ some amount_msats then
        ⟨.error .InvoiceAmountMismatch, db, [call]⟩
      else if invoice_insert_fails then
        ⟨.error .DbError, db, [call]⟩
      else
        let new_invoice : NewInvoice := ⟨user.id, resp.invoice, i64_of_u64 amount_msats,
          resp.payment_preimage.getD "", comment, InvoiceState.Pending.toInt⟩
        let inserted := NewInvoice.insert new_invoice db
        match zap_request with
        | some zr =>
          if zap_insert_fails then ⟨.error .DbError, db, [call]⟩
          else ⟨.ok invoice, Zap.insert ⟨0, Event.as_json zr, none⟩ inserted.2, [call]⟩
        | none => ⟨.ok invoice, inserted.2, [call]⟩

/-- Model of `get_invoice_impl` (`src/routes.rs` lines 45-124). -/
def get_invoice_impl (state : AppState) (db : Db) (name : String)
    (params : LnurlCallbackParams)
    (wallet_resp : Except String CreateInvoiceResp)
    (parse_bolt11 : String → Except String Bolt11Inv)
    (invoice_insert_fails zap_insert_fails : Bool) : GIResult :=
  match params.amount with
  | none => ⟨.error .MissingAmount, db, []⟩
  | some amount_msats =>
    if amount_msats < state.min_sendable ∨ amount_msats > state.max_sendable then
      ⟨.error .AmountOutOfBounds, db, []⟩
    else
      match User.get_by_name db name with
      | none => ⟨.error .UserNotFound, db, []⟩
      | some user =>
        if user.disabled_zaps then ⟨.error .ZapsDisabled, db, []⟩
        else
          match params.nostr with
          | none =>
            issue_invoice db user amount_msats
              (sha256 (utf8Bytes (calc_metadata name state.domain))) none params.comment
              wallet_resp parse_bolt11 invoice_insert_fails zap_insert_fails
          | some str =>
            match zap_event_of str with
            | none => ⟨.error .InvalidZapRequest, db, []⟩
            | some event =>
              issue_invoice db user amount_msats (sha256 (utf8Bytes str)) (some event)
                params.comment wallet_resp parse_bolt11 invoice_insert_fails zap_insert_fails

/-- The report the verification responder is specified to produce. -/
structure VerifyReport where
  settled : Bool
  preimage : Option String
  pr : String
deriving DecidableEq

/-- An LNURL error response: HTTP status code plus the `reason` string. -/
structure HttpError where
  code : Nat
  reason : String
deriving DecidableEq

/-- Model of the `verify` route (`src/routes.rs` lines 272-284): the body is
an unconditional stub that ignores both path parameters and the application
state and returns 400 "Invalid payment hash". -/
def verify (_desc_hash _pay_hash : String) (_db : Db) : Except HttpError VerifyReport :=
  .error ⟨400, "Invalid payment hash"⟩

/-- Spec-side canonical encoder for LNURL metadata entries: a JSON array of
two-element string arrays. -/
def encodeEntry (p : String × String) : String :=
  "[\"" ++ p.1 ++ "\",\"" ++ p.2 ++ "\"]"

/-- Spec-side canonical encoder: the metadata document for a list of entries. -/
def encodeEntries (l : List (String × String)) : String :=
  "[" ++ String.intercalate "," (l.map encodeEntry) ++ "]"

/-! ## Helper lemmas about `issue_invoice` -/

theorem issue_calls (db : Db) (user : User) (a : Nat) (h : List Nat)
    (zr : Option Event) (c : Option String) (wr : Except String CreateInvoiceResp)
    (pb : String → Except String Bolt11Inv) (f1 f2 : Bool) :
    (issue_invoice db user a h zr c wr pb f1 f2).wallet_calls =
      [⟨a / 1000, some h, some user.pubkey⟩] := by
  unfold issue_invoice
  repeat first | rfl | split

theorem issue_error_db (db : Db) (user : User) (a : Nat) (h : List Nat)
    (zr : Option Event) (c : Option String) (wr : Except String CreateInvoiceResp)
    (pb : String → Except String Bolt11Inv) (f1 f2 : Bool) (e : LnurlError) :
    (issue_invoice db user a h zr c wr pb f1 f2).result = .error e →
      (issue_invoice db user a h zr c wr pb f1 f2).db = db := by
  unfold issue_invoice
  repeat first | split | (exact fun _ => rfl) | (intro he; simp at he)

theorem issue_not_invalid_zap (db : Db) (user : User) (a : Nat) (h : List Nat)
    (zr : Option Event) (c : Option String) (wr : Except String CreateInvoiceResp)
    (pb : String → Except String Bolt11Inv) (f1 f2 : Bool) :
    (issue_invoice db user a h zr c wr pb f1 f2).result ≠ .error .InvalidZapRequest := by
  unfold issue_invoice
  repeat first | simp | split

theorem issue_mismatch (db : Db) (user : User) (a : Nat) (h : List Nat)
    (zr : Option Event) (c : Option String) (wr : Except String CreateInvoiceResp)
    (pb : String → Except String Bolt11Inv) (f1 f2 : Bool)
    (resp : CreateInvoiceResp) (inv : Bolt11Inv)
    (hw : wr = .ok resp) (hp : pb resp.invoice = .ok inv)
    (hne : inv.amount_milli_satoshis ≠ some a) :
    (issue_invoice db user a h zr c wr pb f1 f2).result = .error .InvoiceAmountMismatch := by
  subst hw
  unfold issue_invoice
  simp [hp, hne]

theorem issue_ok (db : Db) (user : User) (a : Nat) (h : List Nat)
    (zr : Option Event) (c : Option String) (wr : Except String CreateInvoiceResp)
    (pb : String → Except String Bolt11Inv) (f1 f2 : Bool) (inv : Bolt11Inv)
    (hok : (issue_invoice db user a h zr c wr pb f1 f2).result = .ok inv) :
    ∃ resp, wr = .ok resp ∧ pb resp.invoice = .ok inv ∧
      inv.amount_milli_satoshis = some a ∧
      (issue_invoice db user a h zr c wr pb f1 f2).db.invoices =
        db.invoices ++ [⟨db.next_invoice_id, user.id, resp.invoice,
          i64_of_u64 a, resp.payment_preimage.getD "", c, InvoiceState.Pending.toInt⟩] ∧
      (issue_invoice db user a h zr c wr pb f1 f2).db.users = db.users ∧
      (match zr with
       | some ev => (issue_invoice db user a h zr c wr pb f1 f2).db.zaps =
           db.zaps ++ [⟨0, Event.as_json ev, none⟩]
       | none => (issue_invoice db user a h zr c wr pb f1 f2).db.zaps = db.zaps) := by
  unfold issue_invoice at hok ⊢
  rcases wr with e | resp
  · simp at hok
  · rcases hp : pb resp.invoice with e | binv
    · simp [hp] at hok
    · simp only [hp] at hok ⊢
      by_cases hm : binv.amount_milli_satoshis = none ∨ binv.amount_milli_satoshis ≠ some a
      · simp [hm] at hok
      · rw [if_neg hm] at hok ⊢
        push_neg at hm
        rcases f1 with _ | _
        · rcases zr with _ | ev
          · simp only [] at hok
            simp at hok
            subst hok
            exact ⟨resp, rfl, hp, hm.2, by simp [NewInvoice.insert], by simp [NewInvoice.insert], by simp [NewInvoice.insert]⟩
          · rcases f2 with _ | _
            · simp at hok
              subst hok
              exact ⟨resp, rfl, hp, hm.2, by simp [NewInvoice.insert, Zap.insert], by simp [NewInvoice.insert, Zap.insert], by simp [NewInvoice.insert, Zap.insert]⟩
            · simp at hok
        · simp at hok

/-- Inversion for `get_invoice_impl`: whenever the wallet was called or the
run succeeded, every validation check passed, and the run is an
`issue_invoice` call whose commitment input is the rendered metadata when no
`nostr` parameter was supplied and the raw `nostr` string otherwise. -/
theorem gii_progress (st : AppState) (db : Db) (name : String)
    (params : LnurlCallbackParams) (wr : Except String CreateInvoiceResp)
    (pb : String → Except String Bolt11Inv) (f1 f2 : Bool)
    (hc : (get_invoice_impl st db name params wr pb f1 f2).wallet_calls ≠ [] ∨
      ∃ inv, (get_invoice_impl st db name params wr pb f1 f2).result = .ok inv) :
    ∃ a user, params.amount = some a ∧
      ¬(a < st.min_sendable ∨ a > st.max_sendable) ∧
      User.get_by_name db name = some user ∧ user.disabled_zaps = false ∧
      ((params.nostr = none ∧ get_invoice_impl st db name params wr pb f1 f2 =
          issue_invoice db user a (sha256 (utf8Bytes (calc_metadata name st.domain)))
            none params.comment wr pb f1 f2) ∨
       (∃ s ev, params.nostr = some s ∧ zap_event_of s = some ev ∧
          get_invoice_impl st db name params wr pb f1 f2 =
            issue_invoice db user a (sha256 (utf8Bytes s)) (some ev)
              params.comment wr pb f1 f2)) := by
  rcases hA : params.amount with _ | a
  · simp [get_invoice_impl, hA] at hc
  · by_cases hb : a < st.min_sendable ∨ a > st.max_sendable
    · simp [get_invoice_impl, hA, hb] at hc
    · rcases hU : User.get_by_name db name with _ | u
      · simp [get_invoice_impl, hA, hb, hU] at hc
      · by_cases hd : u.disabled_zaps = true
        · simp [get_invoice_impl, hA, hb, hU, hd] at hc
        · rcases hN : params.nostr with _ | s
          · refine ⟨a, u, rfl, hb, rfl, by simpa using hd, Or.inl ⟨rfl, ?_⟩⟩
            simp [get_invoice_impl, hA, hb, hU, hd, hN]
          · rcases hz : zap_event_of s with _ | ev
            · simp [get_invoice_impl, hA, hb, hU, hd, hN, hz] at hc
            · refine ⟨a, u, rfl, hb, rfl, by simpa using hd, Or.inr ⟨s, ev, rfl, hz, ?_⟩⟩
              simp [get_invoice_impl, hA, hb, hU, hd, hN, hz]

/-- C3: The verification responder is specified to look up the invoice by
payment hash, check the commitment, and report settlement state, failing with
`NotFound` when there is no match.  The source's `verify` is an unconditional
stub: for every description-hash/payment-hash pair and every store state it
ignores its inputs and fails with 400 "Invalid payment hash" — it never
performs a lookup, never reports `{settled, preimage}`, and does not even
distinguish the no-match case with the specified `NotFound` reason. -/
theorem verify_is_unconditional_stub (desc_hash pay_hash : String) (db : Db) :
    verify desc_hash pay_hash db = .error ⟨400, "Invalid payment hash"⟩ := rfl

/-- C8: `calc_metadata` is a pure function (a Lean `def` with no effects), and
for every name and domain its output is exactly the canonical two-entry
encoding: a `text/identifier` record containing `name@domain` and a
`text/plain` human-readable description.  Determinism across calls is
definitional: identical inputs denote the identical string. -/
theorem calc_metadata_two_entries (n d : String) :
    calc_metadata n d =
      encodeEntries [("text/identifier", n ++ "@" ++ d), ("text/plain", "Sats for " ++ n)] := by
  simp [calc_metadata, encodeEntries, encodeEntry, String.intercalate, String.intercalate.go]
  apply String.ext
  simp [String.data_append]

/-- C6: `get_invoice_impl` runs its validation checks in the claimed order —
missing amount, amount out of the inclusive `[min_sendable, max_sendable]`
bounds, unknown user, user with zaps disabled, structurally invalid zap
request — each producing its distinct error, with the store unchanged and no
wallet call made (each later check fires only when all earlier ones passed,
which is the claimed ordering). -/
theorem validation_checks_in_order (st : AppState) (db : Db) (name : String)
    (params : LnurlCallbackParams) (wr : Except String CreateInvoiceResp)
    (pb : String → Except String Bolt11Inv) (f1 f2 : Bool) :
    (params.amount = none →
      get_invoice_impl st db name params wr pb f1 f2 = ⟨.error .MissingAmount, db, []⟩) ∧
    (∀ a, params.amount = some a → (a < st.min_sendable ∨ a > st.max_sendable) →
      get_invoice_impl st db name params wr pb f1 f2 = ⟨.error .AmountOutOfBounds, db, []⟩) ∧
    (∀ a, params.amount = some a → ¬(a < st.min_sendable ∨ a > st.max_sendable) →
      User.get_by_name db name = none →
      get_invoice_impl st db name params wr pb f1 f2 = ⟨.error .UserNotFound, db, []⟩) ∧
    (∀ a u, params.amount = some a → ¬(a < st.min_sendable ∨ a > st.max_sendable) →
      User.get_by_name db name = some u → u.disabled_zaps = true →
      get_invoice_impl st db name params wr pb f1 f2 = ⟨.error .ZapsDisabled, db, []⟩) ∧
    (∀ a u s, params.amount = some a → ¬(a < st.min_sendable ∨ a > st.max_sendable) →
      User.get_by_name db name = some u → u.disabled_zaps = false →
      params.nostr = some s → zap_event_of s = none →
      get_invoice_impl st db name params wr pb f1 f2 = ⟨.error .InvalidZapRequest, db, []⟩) := by
  refine ⟨?_, ?_, ?_, ?_, ?_⟩
  · intro hA
    unfold get_invoice_impl
    simp [hA]
  · intro a hA hb
    unfold get_invoice_impl
    simp [hA, hb]
  · intro a hA hb hU
    unfold get_invoice_impl
    simp [hA, hb, hU]
  · intro a u hA hb hU hd
    unfold get_invoice_impl
    simp [hA, hb, hU, hd]
  · intro a u s hA hb hU hd hN hz
    unfold get_invoice_impl
    simp [hA, hb, hU, hd, hN, hz]

/-- Witness for C6 at a concrete input: a request with no amount fails with
`MissingAmount`, leaving the store unchanged and calling no wallet. -/
theorem validation_checks_in_order_witness :
    get_invoice_impl ⟨"example.com", 1000, 11000000000⟩ ⟨[], [], [], 1⟩ "alice"
      ⟨none, none, none⟩ (.error "down") (fun _ => .error "no parse") false false =
      ⟨.error .MissingAmount, ⟨[], [], [], 1⟩, []⟩ :=
  (validation_checks_in_order ⟨"example.com", 1000, 11000000000⟩ ⟨[], [], [], 1⟩ "alice"
    ⟨none, none, none⟩ (.error "down") (fun _ => .error "no parse") false false).1 rfl

theorem sha256_length (msg : List Nat) : (sha256 msg).length = 32 := by
  simp [sha256, be32]

theorem gii_error_db (st : AppState) (db : Db) (name : String)
    (params : LnurlCallbackParams) (wr : Except String CreateInvoiceResp)
    (pb : String → Except String Bolt11Inv) (f1 f2 : Bool) (e : LnurlError) :
    (get_invoice_impl st db name params wr pb f1 f2).result = .error e →
      (get_invoice_impl st db name params wr pb f1 f2).db = db := by
  unfold get_invoice_impl
  repeat
    first
    | split
    | (exact fun _ => rfl)
    | (exact fun he => issue_error_db _ _ _ _ _ _ _ _ _ _ _ he)

/-- C7: every wallet call made by `get_invoice_impl` carries as its
description-hash commitment the SHA-256 digest of the Metadata Encoder's
output for the user's name and the serving domain when no zap-request payload
was supplied, and the SHA-256 digest of the raw serialized zap-request string
when one was supplied; and the digest is always 32 bytes.  Determinism is
definitional: `sha256` is a pure function of its input bytes. -/
theorem desc_hash_commitment (st : AppState) (db : Db) (name : String)
    (params : LnurlCallbackParams) (wr : Except String CreateInvoiceResp)
    (pb : String → Except String Bolt11Inv) (f1 f2 : Bool) (c : WalletCall)
    (hc : c ∈ (get_invoice_impl st db name params wr pb f1 f2).wallet_calls) :
    c.description_hash = some (sha256 (utf8Bytes (match params.nostr with
      | none => calc_metadata name st.domain
      | some s => s))) ∧
    (∀ l, (sha256 l).length = 32) := by
  refine ⟨?_, fun l => sha256_length l⟩
  obtain ⟨a, u, hA, hb, hU, hd, hcase⟩ :=
    gii_progress st db name params wr pb f1 f2 (Or.inl (List.ne_nil_of_mem hc))
  rcases hcase with ⟨hN, heq⟩ | ⟨s, ev, hN, hz, heq⟩
  · rw [heq, issue_calls] at hc
    simp at hc
    rw [hc, hN]
  · rw [heq, issue_calls] at hc
    simp at hc
    rw [hc, hN]

/-- Witness for C7 at a concrete input: with no `nostr` parameter, the single
wallet call's commitment is the SHA-256 of the rendered metadata. -/
theorem desc_hash_commitment_witness :
    ((get_invoice_impl ⟨"b", 1000, 11000000000⟩ ⟨[⟨1, "02aa", "a", false⟩], [], [], 1⟩ "a"
        ⟨some 5000, none, none⟩ (.ok ⟨"lnbc50n1x", none⟩) (fun _ => .ok ⟨some 5000⟩)
        false false).wallet_calls.getD 0 ⟨0, none, none⟩).description_hash =
      some (sha256 (utf8Bytes (calc_metadata "a" "b"))) :=
  (desc_hash_commitment ⟨"b", 1000, 11000000000⟩ ⟨[⟨1, "02aa", "a", false⟩], [], [], 1⟩ "a"
    ⟨some 5000, none, none⟩ (.ok ⟨"lnbc50n1x", none⟩) (fun _ => .ok ⟨some 5000⟩) false false
    _ (by simp [get_invoice_impl, issue_invoice, User.get_by_name])).1

/-- C9: the wallet is always called with the requested millisatoshi amount
integer-divided by 1000 (fractional sats truncated); consequently, for a
request whose amount is not a multiple of 1000, a wallet response whose
parsed invoice embeds exactly the converted amount (in millisatoshis,
`1000 * (a / 1000)`) differs from the requested amount, so the run fails with
`InvoiceAmountMismatch` and the store is unchanged. -/
theorem msat_truncation (st : AppState) (db : Db) (name : String)
    (params : LnurlCallbackParams) (wr : Except String CreateInvoiceResp)
    (pb : String → Except String Bolt11Inv) (f1 f2 : Bool) (a : Nat)
    (hA : params.amount = some a) :
    (∀ c ∈ (get_invoice_impl st db name params wr pb f1 f2).wallet_calls,
      c.amount_sats = a / 1000) ∧
    (∀ resp inv, a % 1000 ≠ 0 →
      (get_invoice_impl st db name params wr pb f1 f2).wallet_calls ≠ [] →
      wr = .ok resp → pb resp.invoice = .ok inv →
      inv.amount_milli_satoshis = some (1000 * (a / 1000)) →
      (get_invoice_impl st db name params wr pb f1 f2).result = .error .InvoiceAmountMismatch ∧
      (get_invoice_impl st db name params wr pb f1 f2).db = db) := by
  constructor
  · intro c hc
    obtain ⟨a2, u, hA2, hb, hU, hd, hcase⟩ :=
      gii_progress st db name params wr pb f1 f2 (Or.inl (List.ne_nil_of_mem hc))
    have haa : a2 = a := by rw [hA] at hA2; exact (Option.some_inj.mp hA2).symm
    subst haa
    rcases hcase with ⟨hN, heq⟩ | ⟨s, ev, hN, hz, heq⟩ <;>
      (rw [heq, issue_calls] at hc; simp at hc; rw [hc])
  · intro resp inv hmod hcall hw hp hamt
    obtain ⟨a2, u, hA2, hb, hU, hd, hcase⟩ :=
      gii_progress st db name params wr pb f1 f2 (Or.inl hcall)
    have haa : a2 = a := by rw [hA] at hA2; exact (Option.some_inj.mp hA2).symm
    have hne : inv.amount_milli_satoshis ≠ some a2 := by
      rw [hamt, haa]
      intro hcon
      have h1000 : 1000 * (a / 1000) = a := Option.some_inj.mp hcon
      omega
    rcases hcase with ⟨hN, heq⟩ | ⟨s, ev, hN, hz, heq⟩ <;>
      (rw [heq]
       refine ⟨issue_mismatch _ _ _ _ _ _ _ _ _ _ resp inv hw hp hne, ?_⟩
       exact issue_error_db _ _ _ _ _ _ _ _ _ _ _
         (issue_mismatch _ _ _ _ _ _ _ _ _ _ resp inv hw hp hne))

/-- Witness for C9 at a concrete input: requesting 1500 msat makes the wallet
be asked for 1 sat, and a wallet invoice embedding exactly 1000 msat fails
the cross-check with `InvoiceAmountMismatch`, leaving the store unchanged. -/
theorem msat_truncation_witness :
    (get_invoice_impl ⟨"b", 1000, 11000000000⟩ ⟨[⟨1, "02aa", "a", false⟩], [], [], 1⟩ "a"
      ⟨some 1500, none, none⟩ (.ok ⟨"lnbc15u", none⟩) (fun _ => .ok ⟨some 1000⟩)
      false false).result = .error .InvoiceAmountMismatch ∧
    (get_invoice_impl ⟨"b", 1000, 11000000000⟩ ⟨[⟨1, "02aa", "a", false⟩], [], [], 1⟩ "a"
      ⟨some 1500, none, none⟩ (.ok ⟨"lnbc15u", none⟩) (fun _ => .ok ⟨some 1000⟩)
      false false).db = ⟨[⟨1, "02aa", "a", false⟩], [], [], 1⟩ :=
  (msat_truncation ⟨"b", 1000, 11000000000⟩ ⟨[⟨1, "02aa", "a", false⟩], [], [], 1⟩ "a"
    ⟨some 1500, none, none⟩ (.ok ⟨"lnbc15u", none⟩) (fun _ => .ok ⟨some 1000⟩)
    false false 1500 rfl).2 ⟨"lnbc15u", none⟩ ⟨some 1000⟩ (by decide)
    (by simp [get_invoice_impl, issue_invoice, User.get_by_name]) rfl rfl rfl

/-- C4: persistence in `get_invoice_impl` is atomic.  On any error the store
is exactly as before (rollback: no partial row is visible, in particular when
either insert fails).  On success the store gains exactly one Invoice row
with lifecycle state `Pending`, and exactly one Zap row if and only if a
validated zap-request payload was present. -/
theorem persistence_atomic (st : AppState) (db : Db) (name : String)
    (params : LnurlCallbackParams) (wr : Except String CreateInvoiceResp)
    (pb : String → Except String Bolt11Inv) (f1 f2 : Bool) :
    (∀ e, (get_invoice_impl st db name params wr pb f1 f2).result = .error e →
      (get_invoice_impl st db name params wr pb f1 f2).db = db) ∧
    (∀ inv, (get_invoice_impl st db name params wr pb f1 f2).result = .ok inv →
      ∃ a u resp, params.amount = some a ∧ User.get_by_name db name = some u ∧
        wr = .ok resp ∧
        (get_invoice_impl st db name params wr pb f1 f2).db.invoices =
          db.invoices ++ [⟨db.next_invoice_id, u.id, resp.invoice, i64_of_u64 a,
            resp.payment_preimage.getD "", params.comment, InvoiceState.Pending.toInt⟩] ∧
        (match params.nostr.bind zap_event_of with
         | some ev => (get_invoice_impl st db name params wr pb f1 f2).db.zaps =
             db.zaps ++ [⟨0, Event.as_json ev, none⟩]
         | none => (get_invoice_impl st db name params wr pb f1 f2).db.zaps = db.zaps)) := by
  refine ⟨fun e he => gii_error_db st db name params wr pb f1 f2 e he, ?_⟩
  intro inv hok
  obtain ⟨a, u, hA, hb, hU, hd, hcase⟩ :=
    gii_progress st db name params wr pb f1 f2 (Or.inr ⟨inv, hok⟩)
  rcases hcase with ⟨hN, heq⟩ | ⟨s, ev, hN, hz, heq⟩
  · rw [heq] at hok
    obtain ⟨resp, hw, hp, hamt, hinv, husers, hzaps⟩ :=
      issue_ok _ _ _ _ _ _ _ _ _ _ _ hok
    rw [heq]
    exact ⟨a, u, resp, hA, hU, hw, hinv, by simp only [hN, Option.bind]; exact hzaps⟩
  · rw [heq] at hok
    obtain ⟨resp, hw, hp, hamt, hinv, husers, hzaps⟩ :=
      issue_ok _ _ _ _ _ _ _ _ _ _ _ hok
    rw [heq]
    refine ⟨a, u, resp, hA, hU, hw, hinv, ?_⟩
    simp only [hN, Option.bind, hz]
    exact hzaps

/-- Witness for C4 at a concrete input: a successful run with no zap request
commits exactly the one Pending invoice row and leaves the zaps table
unchanged. -/
theorem persistence_atomic_witness :
    ∃ a u resp, (⟨some 5000000, some "hi", none⟩ : LnurlCallbackParams).amount = some a ∧
      User.get_by_name ⟨[⟨1, "02aa", "alice", false⟩], [], [], 1⟩ "alice" = some u ∧
      (.ok ⟨"lnbc50m1x", some "p"⟩ : Except String CreateInvoiceResp) = .ok resp ∧
      (get_invoice_impl ⟨"example.com", 1000, 11000000000⟩
        ⟨[⟨1, "02aa", "alice", false⟩], [], [], 1⟩ "alice" ⟨some 5000000, some "hi", none⟩
        (.ok ⟨"lnbc50m1x", some "p"⟩) (fun _ => .ok ⟨some 5000000⟩) false false).db.invoices =
        [] ++ [⟨1, u.id, resp.invoice, i64_of_u64 a, resp.payment_preimage.getD "",
          some "hi", InvoiceState.Pending.toInt⟩] ∧
      (match (⟨some 5000000, some "hi", none⟩ : LnurlCallbackParams).nostr.bind zap_event_of with
       | some ev => (get_invoice_impl ⟨"example.com", 1000, 11000000000⟩
           ⟨[⟨1, "02aa", "alice", false⟩], [], [], 1⟩ "alice" ⟨some 5000000, some "hi", none⟩
           (.ok ⟨"lnbc50m1x", some "p"⟩) (fun _ => .ok ⟨some 5000000⟩) false false).db.zaps =
           [] ++ [⟨0, Event.as_json ev, none⟩]
       | none => (get_invoice_impl ⟨"example.com", 1000, 11000000000⟩
           ⟨[⟨1, "02aa", "alice", false⟩], [], [], 1⟩ "alice" ⟨some 5000000, some "hi", none⟩
           (.ok ⟨"lnbc50m1x", some "p"⟩) (fun _ => .ok ⟨some 5000000⟩) false false).db.zaps = []) :=
  (persistence_atomic ⟨"example.com", 1000, 11000000000⟩
    ⟨[⟨1, "02aa", "alice", false⟩], [], [], 1⟩ "alice" ⟨some 5000000, some "hi", none⟩
    (.ok ⟨"lnbc50m1x", some "p"⟩) (fun _ => .ok ⟨some 5000000⟩) false false).2
    ⟨some 5000000⟩ rfl

/-- C5: when the run reaches the wallet, a parsed wallet invoice whose
embedded millisatoshi amount is absent or differs from the requested amount
makes the request fail with `InvoiceAmountMismatch` and leaves the store
unchanged; conversely a returned invoice always embeds exactly the requested
amount, and the invoice table only ever changes when the parsed invoice
embeds exactly the requested amount. -/
theorem invoice_amount_crosscheck (st : AppState) (db : Db) (name : String)
    (params : LnurlCallbackParams) (wr : Except String CreateInvoiceResp)
    (pb : String → Except String Bolt11Inv) (f1 f2 : Bool) (a : Nat)
    (resp : CreateInvoiceResp) (hA : params.amount = some a) (hw : wr = .ok resp)
    (hcall : (get_invoice_impl st db name params wr pb f1 f2).wallet_calls ≠ []) :
    (∀ inv, pb resp.invoice = .ok inv → inv.amount_milli_satoshis ≠ some a →
      (get_invoice_impl st db name params wr pb f1 f2).result = .error .InvoiceAmountMismatch ∧
      (get_invoice_impl st db name params wr pb f1 f2).db = db) ∧
    (∀ inv, (get_invoice_impl st db name params wr pb f1 f2).result = .ok inv →
      inv.amount_milli_satoshis = some a) ∧
    ((get_invoice_impl st db name params wr pb f1 f2).db.invoices ≠ db.invoices →
      ∃ inv, pb resp.invoice = .ok inv ∧ inv.amount_milli_satoshis = some a) := by
  obtain ⟨a2, u, hA2, hb, hU, hd, hcase⟩ :=
    gii_progress st db name params wr pb f1 f2 (Or.inl hcall)
  have haa : a2 = a := by rw [hA] at hA2; exact (Option.some_inj.mp hA2).symm
  refine ⟨?_, ?_, ?_⟩
  · intro inv hp hne
    have hne2 : inv.amount_milli_satoshis ≠ some a2 := by rw [haa]; exact hne
    rcases hcase with ⟨hN, heq⟩ | ⟨s, ev, hN, hz, heq⟩ <;>
      (rw [heq]
       exact ⟨issue_mismatch _ _ _ _ _ _ _ _ _ _ resp inv hw hp hne2,
         issue_error_db _ _ _ _ _ _ _ _ _ _ _
           (issue_mismatch _ _ _ _ _ _ _ _ _ _ resp inv hw hp hne2)⟩)
  · intro inv hok
    rcases hcase with ⟨hN, heq⟩ | ⟨s, ev, hN, hz, heq⟩ <;>
      (rw [heq] at hok
       obtain ⟨resp2, hw2, hp2, hamt, _⟩ := issue_ok _ _ _ _ _ _ _ _ _ _ _ hok
       rw [haa] at hamt
       exact hamt)
  · intro hchanged
    rcases hcase with ⟨hN, heq⟩ | ⟨s, ev, hN, hz, heq⟩
    · rw [heq] at hchanged
      rcases hr : (issue_invoice db u a2 (sha256 (utf8Bytes (calc_metadata name st.domain)))
          none params.comment wr pb f1 f2).result with e | inv
      · exact absurd (congrArg Db.invoices (issue_error_db _ _ _ _ _ _ _ _ _ _ _ hr)) hchanged
      · obtain ⟨resp2, hw2, hp2, hamt, _⟩ := issue_ok _ _ _ _ _ _ _ _ _ _ _ hr
        have hresp : resp2 = resp := by
          rw [hw] at hw2
          exact (Except.ok.injEq _ _).mp hw2.symm
        rw [hresp] at hp2
        rw [haa] at hamt
        exact ⟨inv, hp2, hamt⟩
    · rw [heq] at hchanged
      rcases hr : (issue_invoice db u a2 (sha256 (utf8Bytes s))
          (some ev) params.comment wr pb f1 f2).result with e | inv
      · exact absurd (congrArg Db.invoices (issue_error_db _ _ _ _ _ _ _ _ _ _ _ hr)) hchanged
      · obtain ⟨resp2, hw2, hp2, hamt, _⟩ := issue_ok _ _ _ _ _ _ _ _ _ _ _ hr
        have hresp : resp2 = resp := by
          rw [hw] at hw2
          exact (Except.ok.injEq _ _).mp hw2.symm
        rw [hresp] at hp2
        rw [haa] at hamt
        exact ⟨inv, hp2, hamt⟩

/-- Witness for C5 at a concrete input: a wallet invoice with no embedded
amount fails the cross-check and persists nothing. -/
theorem invoice_amount_crosscheck_witness :
    (get_invoice_impl ⟨"b", 1000, 11000000000⟩ ⟨[⟨1, "02aa", "a", false⟩], [], [], 1⟩ "a"
      ⟨some 5000, none, none⟩ (.ok ⟨"lnbc1x", none⟩) (fun _ => .ok ⟨none⟩)
      false false).result = .error .InvoiceAmountMismatch ∧
    (get_invoice_impl ⟨"b", 1000, 11000000000⟩ ⟨[⟨1, "02aa", "a", false⟩], [], [], 1⟩ "a"
      ⟨some 5000, none, none⟩ (.ok ⟨"lnbc1x", none⟩) (fun _ => .ok ⟨none⟩)
      false false).db = ⟨[⟨1, "02aa", "a", false⟩], [], [], 1⟩ :=
  (invoice_amount_crosscheck ⟨"b", 1000, 11000000000⟩ ⟨[⟨1, "02aa", "a", false⟩], [], [], 1⟩
    "a" ⟨some 5000, none, none⟩ (.ok ⟨"lnbc1x", none⟩) (fun _ => .ok ⟨none⟩) false false
    5000 ⟨"lnbc1x", none⟩ rfl rfl
    (by simp [get_invoice_impl, issue_invoice, User.get_by_name])).1
    ⟨none⟩ rfl (by simp)

theorem gii_no_invalid_zap_without_nostr (st : AppState) (db : Db) (name : String)
    (params : LnurlCallbackParams) (wr : Except String CreateInvoiceResp)
    (pb : String → Except String Bolt11Inv) (f1 f2 : Bool)
    (hN : params.nostr = none) :
    (get_invoice_impl st db name params wr pb f1 f2).result ≠ .error .InvalidZapRequest := by
  unfold get_invoice_impl
  repeat
    first
    | (exact issue_not_invalid_zap _ _ _ _ _ _ _ _ _ _)
    | split
    | (intro he; simp at he)
    | simp_all

theorem gii_zaps_unchanged_without_nostr (st : AppState) (db : Db) (name : String)
    (params : LnurlCallbackParams) (wr : Except String CreateInvoiceResp)
    (pb : String → Except String Bolt11Inv) (f1 f2 : Bool)
    (hN : params.nostr = none) :
    (get_invoice_impl st db name params wr pb f1 f2).db.zaps = db.zaps := by
  rcases hr : (get_invoice_impl st db name params wr pb f1 f2).result with e | inv
  · rw [gii_error_db st db name params wr pb f1 f2 e hr]
  · obtain ⟨a, u, hA, hb, hU, hd, hcase⟩ :=
      gii_progress st db name params wr pb f1 f2 (Or.inr ⟨inv, hr⟩)
    rcases hcase with ⟨hN2, heq⟩ | ⟨s, ev, hN2, hz, heq⟩
    · rw [heq] at hr ⊢
      obtain ⟨resp, hw, hp, hamt, hinv, husers, hzaps⟩ := issue_ok _ _ _ _ _ _ _ _ _ _ _ hr
      exact hzaps
    · rw [hN] at hN2
      exact absurd hN2 (by simp)

/-- C10: a `nostr` or `comment` query parameter that is present but equal to
the empty string deserializes to `none`; an empty `nostr` is treated as no
zap request — the commitment sent to the wallet is the hash of the rendered
metadata, the request does not fail zap validation, and the zaps table never
changes — and an empty `comment` is stored as no comment on the created
invoice row. -/
theorem empty_string_params_as_none (st : AppState) (db : Db) (name : String)
    (a : Option Nat) (wr : Except String CreateInvoiceResp)
    (pb : String → Except String Bolt11Inv) (f1 f2 : Bool) :
    parseCallbackQuery a (some "") (some "") = ⟨a, none, none⟩ ∧
    (∀ c ∈ (get_invoice_impl st db name (parseCallbackQuery a (some "") (some ""))
        wr pb f1 f2).wallet_calls,
      c.description_hash = some (sha256 (utf8Bytes (calc_metadata name st.domain)))) ∧
    (get_invoice_impl st db name (parseCallbackQuery a (some "") (some ""))
        wr pb f1 f2).result ≠ .error .InvalidZapRequest ∧
    (get_invoice_impl st db name (parseCallbackQuery a (some "") (some ""))
        wr pb f1 f2).db.zaps = db.zaps ∧
    (∀ inv, (get_invoice_impl st db name (parseCallbackQuery a (some "") (some ""))
        wr pb f1 f2).result = .ok inv →
      (get_invoice_impl st db name (parseCallbackQuery a (some "") (some ""))
        wr pb f1 f2).db.invoices.map Invoice.lnurlp_comment =
        db.invoices.map Invoice.lnurlp_comment ++ [none]) := by
  have hp : parseCallbackQuery a (some "") (some "") =
      (⟨a, none, none⟩ : LnurlCallbackParams) := rfl
  refine ⟨hp, ?_, ?_, ?_, ?_⟩
  · intro c hc
    obtain ⟨a2, u, hA, hb, hU, hd, hcase⟩ :=
      gii_progress st db name _ wr pb f1 f2 (Or.inl (List.ne_nil_of_mem hc))
    rcases hcase with ⟨hN, heq⟩ | ⟨s, ev, hN, hz, heq⟩
    · rw [heq, issue_calls] at hc
      simp at hc
      rw [hc]
    · rw [hp] at hN
      exact absurd hN (by simp)
  · exact gii_no_invalid_zap_without_nostr st db name _ wr pb f1 f2 rfl
  · exact gii_zaps_unchanged_without_nostr st db name _ wr pb f1 f2 rfl
  · intro inv hok
    obtain ⟨a2, u, hA, hb, hU, hd, hcase⟩ :=
      gii_progress st db name _ wr pb f1 f2 (Or.inr ⟨inv, hok⟩)
    rcases hcase with ⟨hN, heq⟩ | ⟨s, ev, hN, hz, heq⟩
    · rw [heq] at hok ⊢
      obtain ⟨resp, hw, hpb, hamt, hinv, husers, hzaps⟩ := issue_ok _ _ _ _ _ _ _ _ _ _ _ hok
      rw [hinv]
      simp [parseCallbackQuery, empty_string_as_none]
    · rw [hp] at hN
      exact absurd hN (by simp)

/-- Witness for C10 at a concrete input: with raw empty-string `comment` and
`nostr` parameters, a successful run stores the invoice row with no comment. -/
theorem empty_string_params_as_none_witness :
    (get_invoice_impl ⟨"b", 1000, 11000000000⟩ ⟨[⟨1, "02aa", "a", false⟩], [], [], 1⟩ "a"
      (parseCallbackQuery (some 5000) (some "") (some "")) (.ok ⟨"lnbc1x", none⟩)
      (fun _ => .ok ⟨some 5000⟩) false false).db.invoices.map Invoice.lnurlp_comment =
      ([] : List Invoice).map Invoice.lnurlp_comment ++ [none] :=
  (empty_string_params_as_none ⟨"b", 1000, 11000000000⟩ ⟨[⟨1, "02aa", "a", false⟩], [], [], 1⟩
    "a" (some 5000) (.ok ⟨"lnbc1x", none⟩) (fun _ => .ok ⟨some 5000⟩) false false).2.2.2.2
    ⟨some 5000⟩ rfl

/-! ## Concrete zap-request payloads -/

/-- A 64-character lowercase-hex event id. -/
def zapId : String := "aaaaaaaaaaaaaaaaaaaaaaaaaaaaaaaaaaaaaaaaaaaaaaaaaaaaaaaaaaaaaaaa"

/-- A valid x-only public key (the BIP-340 test-vector key). -/
def zapPk : String := "f9308a019258c31049344f85f89d5229b531c845836f99b08601f113bce036f9"

/-- A 128-character lowercase-hex signature string. -/
def zapSig : String := "cccccccccccccccccccccccccccccccccccccccccccccccccccccccccccccccccccccccccccccccccccccccccccccccccccccccccccccccccccccccccccccccc"

/-- A kind-9734 zap-request event in canonical compact serialization. -/
def zapCanon : String :=
  "\x7b\"id\":\"" ++ zapId ++ "\",\"pubkey\":\"" ++ zapPk ++
  "\",\"created_at\":1700000000,\"kind\":9734,\"tags\":[],\"content\":\"\",\"sig\":\"" ++
  zapSig ++ "\"\x7d"

/-- The same event with one extra space after the `kind` key: still a valid
serialization of the same event (JSON is whitespace-insensitive), but not the
canonical one. -/
def zapSpaced : String :=
  "\x7b\"id\":\"" ++ zapId ++ "\",\"pubkey\":\"" ++ zapPk ++
  "\",\"created_at\":1700000000,\"kind\": 9734,\"tags\":[],\"content\":\"\",\"sig\":\"" ++
  zapSig ++ "\"\x7d"

/-- C1 counterexample: a successful invoice-callback run whose `nostr`
parameter is a valid zap request in non-canonical serialization (one extra
space).  The Zap row stores the re-serialization `Event::as_json` of the
parsed event, which differs from the supplied string — yet the supplied
string is what the description-hash commitment was computed over — so the
stored payload is not byte-for-byte the string that was hashed. -/
theorem zap_request_not_verbatim :
    (get_invoice_impl ⟨"b", 1000, 11000000000⟩ ⟨[⟨1, "02aa", "a", false⟩], [], [], 1⟩ "a"
      ⟨some 21000, none, some zapSpaced⟩ (.ok ⟨"lnbc210n1x", none⟩)
      (fun _ => .ok ⟨some 21000⟩) false false).result = .ok ⟨some 21000⟩ ∧
    (get_invoice_impl ⟨"b", 1000, 11000000000⟩ ⟨[⟨1, "02aa", "a", false⟩], [], [], 1⟩ "a"
      ⟨some 21000, none, some zapSpaced⟩ (.ok ⟨"lnbc210n1x", none⟩)
      (fun _ => .ok ⟨some 21000⟩) false false).db.zaps.map Zap.request = [zapCanon] ∧
    zapCanon ≠ zapSpaced := by
  refine ⟨by rfl, by rfl, by decide⟩

theorem zap_event_of_some (s : String) (ev : Event) (hz : zap_event_of s = some ev) :
    Event.from_json s = some ev ∧ ev.kind = kindZapRequest := by
  unfold zap_event_of at hz
  rcases hf : Event.from_json s with _ | e2
  · rw [hf] at hz
    simp at hz
  · rw [hf] at hz
    by_cases hk : e2.kind = kindZapRequest
    · simp [hk] at hz
      rw [← hz]
      exact ⟨rfl, hk⟩
    · simp [hk] at hz

/-- C1 amended: for every successful invoice-callback run that carried a
zap-request payload, the Zap row inserted in the transaction stores the
canonical re-serialization (`Event::as_json`) of the parsed zap-request
event — which equals the supplied string exactly when that string was already
in canonical form — and no external event id; the description-hash commitment
is computed over the raw supplied string (see `desc_hash_commitment`). -/
theorem zap_row_stores_canonical_reserialization (st : AppState) (db : Db)
    (name : String) (params : LnurlCallbackParams)
    (wr : Except String CreateInvoiceResp) (pb : String → Except String Bolt11Inv)
    (f1 f2 : Bool) (s : String) (hN : params.nostr = some s) (inv : Bolt11Inv)
    (hok : (get_invoice_impl st db name params wr pb f1 f2).result = .ok inv) :
    ∃ e, Event.from_json s = some e ∧ e.kind = kindZapRequest ∧
      (get_invoice_impl st db name params wr pb f1 f2).db.zaps =
        db.zaps ++ [⟨0, Event.as_json e, none⟩] := by
  obtain ⟨a, u, hA, hb, hU, hd, hcase⟩ :=
    gii_progress st db name params wr pb f1 f2 (Or.inr ⟨inv, hok⟩)
  rcases hcase with ⟨hN2, heq⟩ | ⟨s2, ev, hN2, hz, heq⟩
  · rw [hN] at hN2
    exact absurd hN2 (by simp)
  · have hss : s2 = s := by
      rw [hN] at hN2
      exact (Option.some_inj.mp hN2).symm
    have hfrom : Event.from_json s = some ev ∧ ev.kind = kindZapRequest := by
      rw [hss] at hz
      exact zap_event_of_some s ev hz
    rw [heq] at hok ⊢
    obtain ⟨resp, hw, hp, hamt, hinv, husers, hzaps⟩ := issue_ok _ _ _ _ _ _ _ _ _ _ _ hok
    exact ⟨ev, hfrom.1, hfrom.2, hzaps⟩

/-- Witness for the amended C1 at a concrete input: a successful run with the
canonical zap request stores its (here unchanged) canonical serialization and
no event id. -/
theorem zap_row_stores_canonical_reserialization_witness :
    ∃ e, Event.from_json zapCanon = some e ∧ e.kind = kindZapRequest ∧
      (get_invoice_impl ⟨"b", 1000, 11000000000⟩ ⟨[⟨1, "02aa", "a", false⟩], [], [], 1⟩ "a"
        ⟨some 21000, none, some zapCanon⟩ (.ok ⟨"lnbc210n1x", none⟩)
        (fun _ => .ok ⟨some 21000⟩) false false).db.zaps =
        [] ++ [⟨0, Event.as_json e, none⟩] :=
  zap_row_stores_canonical_reserialization ⟨"b", 1000, 11000000000⟩
    ⟨[⟨1, "02aa", "a", false⟩], [], [], 1⟩ "a" ⟨some 21000, none, some zapCanon⟩
    (.ok ⟨"lnbc210n1x", none⟩) (fun _ => .ok ⟨some 21000⟩) false false zapCanon rfl
    ⟨some 21000⟩ (by rfl)

/-- C2: the claim says every Zap row's id equals the id of the Invoice row
inserted in the same transaction.  In the code the freshly inserted invoice
(`_inserted_invoice`) is discarded and the Zap row is built with the hard
wired id 0, so on a fresh store (invoice serial at 1) a successful zap-carrying
request inserts an Invoice row with id 1 and a Zap row with id 0. -/
theorem zap_id_not_paired_invoice_id :
    (get_invoice_impl ⟨"b", 1000, 11000000000⟩ ⟨[⟨1, "02aa", "a", false⟩], [], [], 1⟩ "a"
      ⟨some 21000, none, some zapCanon⟩ (.ok ⟨"lnbc210n1x", none⟩)
      (fun _ => .ok ⟨some 21000⟩) false false).db.invoices.map Invoice.id = [1] ∧
    (get_invoice_impl ⟨"b", 1000, 11000000000⟩ ⟨[⟨1, "02aa", "a", false⟩], [], [], 1⟩ "a"
      ⟨some 21000, none, some zapCanon⟩ (.ok ⟨"lnbc210n1x", none⟩)
      (fun _ => .ok ⟨some 21000⟩) false false).db.zaps.map Zap.id = [0] ∧
    (1 : Int) ≠ 0 := by
  refine ⟨by rfl, by rfl, by decide⟩
